import Mathlib

/-!
Shallow embedding of `convertDatToVtk.py`, a converter from a custom
simulator text format to legacy VTK POLYDATA ASCII files.

Modelling conventions:
  * A text file is a `List String` of physical lines without their trailing
    newline characters; end of file is the end of the list.  A blank line in
    the file is a string whose characters are all whitespace (possibly `""`).
  * Python `float` values are modelled as `ℚ`; the claims below only involve
    decimal literals that are exactly representable, parsing, and exact
    equality, so no rounding behaviour is needed.
  * Python exceptions (failed regex `match.group`, `IndexError`, `KeyError`,
    `ValueError` from `float`) are modelled by `Option`, `none` meaning the
    run aborts.
  * Python `dict` is modelled as an association list updated in place
    (overwrite keeps the key, otherwise append), so insertion order and
    last-write-wins semantics are preserved.
  * The iteration order of the Python `set` used for point deduplication is
    implementation defined (hash order); the model enumerates it in first
    insertion order.  No theorem below about the real code depends on that
    choice except where explicitly discussed in its documentation.
  * Loops whose progress depends on consuming input lines take a fuel
    argument; callers pass one more than the number of unread lines, which
    is an upper bound on the number of iterations that consume a line, so
    running out of fuel only models genuine divergence of the Python loop.
-/

/-- File-type selector characters, as in the source. -/
def CRACK_FILETYPE : Char := 'c'

def DAMAGE_FILETYPE : Char := 'd'

def VON_MISES_FILETYPE : Char := 'v'

/-- Python `str.strip` whitespace set (space, tab, newline, CR, VT, FF). -/
def isPySpace (c : Char) : Bool :=
  c = ' ' || c = '\t' || c = '\n' || c = '\r' || c = '\x0b' || c = '\x0c'

/-- Python `line.strip()`. -/
def pyStrip (s : String) : String :=
  String.mk (((s.data.dropWhile isPySpace).reverse.dropWhile isPySpace).reverse)

/-- True when the whole line is whitespace, i.e. `not line.strip()` in Python. -/
def isBlank (s : String) : Bool :=
  s.data.all isPySpace

/-- Characters admitted by the class `[0123456789\.E-]` of the source regexes. -/
def isNumChar (c : Char) : Bool :=
  c.isDigit || c = '.' || c = 'E' || c = '-'

/-- Same class matched under `re.IGNORECASE` (lower-case `e` also matches). -/
def isNumCharCI (c : Char) : Bool :=
  isNumChar c || c = 'e'

/-- CRACK_INITIAL_NUMBER_REGEXP: the whole (stripped) line consists of
numeric-class characters, at least one. -/
def isCrackInitialNumber (s : String) : Bool :=
  !s.data.isEmpty && s.data.all isNumChar

/-- END_OF_FILE_REGEXP `^#+ *#+$`: a block of `#`, optional spaces, a block
of `#`; equivalently either at least two `#` with no spaces, or `#`-block,
nonempty space block, `#`-block. -/
def isEndOfFileMarker (s : String) : Bool :=
  let l := s.data
  let hs := l.takeWhile (fun c => c = '#')
  let rest := l.drop hs.length
  if hs.isEmpty then false
  else if rest.isEmpty then decide (2 ≤ hs.length)
  else
    let sp := rest.takeWhile (fun c => c = ' ')
    let rest2 := rest.drop sp.length
    !sp.isEmpty && !rest2.isEmpty && rest2.all (fun c => c = '#')

/-- ZONE_REGEXP `^ZONE.*$` on a stripped line: the line starts with `ZONE`. -/
def isZoneLine (s : String) : Bool :=
  "ZONE".data.isPrefixOf s.data

/-- Consume an exact literal (case-sensitive). -/
def eatLit : List Char → List Char → Option (List Char)
  | [], l => some l
  | _ :: _, [] => none
  | c :: cs, d :: ds => if c = d then eatLit cs ds else none

/-- Consume an exact literal, case-insensitively. -/
def eatLitCI : List Char → List Char → Option (List Char)
  | [], l => some l
  | _ :: _, [] => none
  | c :: cs, d :: ds => if c.toLower = d.toLower then eatLitCI cs ds else none

/-- Consume `c?`-style optional character. -/
def eatOpt (c : Char) : List Char → List Char
  | [] => []
  | d :: ds => if d = c then ds else d :: ds

/-- Consume zero or more spaces (` *`). -/
def eatSpaces (l : List Char) : List Char :=
  l.dropWhile (fun c => c = ' ')

/-- Consume one or more characters satisfying `p` (`[...]+`), failing on zero. -/
def eatPlus (p : Char → Bool) (l : List Char) : Option (List Char) :=
  let t := l.takeWhile p
  if t.isEmpty then none else some (l.drop t.length)

/-- Take one or more characters satisfying `p`, returning them and the rest. -/
def takePlus (p : Char → Bool) (l : List Char) : Option (List Char × List Char) :=
  let t := l.takeWhile p
  if t.isEmpty then none else some (t, l.drop t.length)

/-- Digits to a natural number. -/
def natOfDigits (l : List Char) : Nat :=
  l.foldl (fun n c => n * 10 + (c.toNat - 48)) 0

/-- TIMESTEP_LAST_LINE_REGEXP matched with `re.IGNORECASE`, returning the
captured `Iter` count: `^Load factor *= *N+ *Total deformation *= *N+ Iter
*= *(\d+)$` with `N` the numeric class. -/
def trailerHead? (s : String) : Option (List Char) :=
  (eatLitCI "Load factor".data s.data).bind fun l1 =>
  (eatLit "=".data (eatSpaces l1)).bind fun l2 =>
  (eatPlus isNumCharCI (eatSpaces l2)).bind fun l3 =>
  (eatLitCI "Total deformation".data (eatSpaces l3)).bind fun l4 =>
  (eatLit "=".data (eatSpaces l4)).bind fun l5 =>
  eatPlus isNumCharCI (eatSpaces l5)

def trailerIter? (s : String) : Option Nat :=
  (trailerHead? s).bind fun l6 =>
  (eatLit " ".data l6).bind fun l7 =>
  (eatLitCI "Iter".data l7).bind fun l8 =>
  (eatLit "=".data (eatSpaces l8)).bind fun l9 =>
  (takePlus Char.isDigit (eatSpaces l9)).bind fun dsl =>
  if dsl.2.isEmpty then some (natOfDigits dsl.1) else none

/-- True when the stripped line matches the timestep trailer pattern
(case-insensitively). -/
def isTimestepLastLine (s : String) : Bool :=
  (trailerIter? s).isSome

/-- TITLE_REGEXP `^TITLE *= *"(.*)"$`: capture the (greedy) quoted text. -/
def titleCapture? (s : String) : Option String :=
  (eatLit "TITLE".data s.data).bind fun l1 =>
  (eatLit "=".data (eatSpaces l1)).bind fun l2 =>
  (eatLit "\"".data (eatSpaces l2)).bind fun l3 =>
  match l3.getLast? with
  | some '"' => some (String.mk l3.dropLast)
  | _ => none

/-- One `(?: *"[^"]*",?)` group followed by the rest of the groups; the
recursion is on the remaining characters, of which each group consumes at
least two (the quotes). -/
def variableGroups : Nat → List Char → Bool
  | 0, _ => false
  | fuel + 1, l =>
    let l1 := eatSpaces l
    match eatLit "\"".data l1 with
    | none => false
    | some l2 =>
      let content := l2.takeWhile (fun c => c ≠ '"')
      match eatLit "\"".data (l2.drop content.length) with
      | none => false
      | some l3 =>
        let l4 := eatOpt ',' l3
        if l4.isEmpty then true else variableGroups fuel l4

/-- VARIABLES_REGEXP `^VARIABLES *=(?: *"[^"]*",?)+$`. -/
def isVariablesLine (s : String) : Bool :=
  let l0 := s.data
  match eatLit "VARIABLES".data l0 with
  | none => false
  | some l1 =>
    match eatLit "=".data (eatSpaces l1) with
    | none => false
    | some l2 => variableGroups (l2.length + 1) l2

/-- ZONE_FULL_HEADER_REGEXP: `^ZONE *T *= *"(t)" *SOLUTIONTIME *= *(\d+) *I
*= *(\d+) *, *J *= *(\d+) *,.*$`, returning (title, solutionTime, I, J). -/
def zoneHeaderCommon? (s : String) : Option (String × Nat × List Char) :=
  (eatLit "ZONE".data s.data).bind fun l1 =>
  (eatLit "T".data (eatSpaces l1)).bind fun l2 =>
  (eatLit "=".data (eatSpaces l2)).bind fun l3 =>
  (eatLit "\"".data (eatSpaces l3)).bind fun l4 =>
  let title := l4.takeWhile (fun c => c ≠ '"')
  (eatLit "\"".data (l4.drop title.length)).bind fun l5 =>
  (eatLit "SOLUTIONTIME".data (eatSpaces l5)).bind fun l6 =>
  (eatLit "=".data (eatSpaces l6)).bind fun l7 =>
  (takePlus Char.isDigit (eatSpaces l7)).bind fun st =>
  some (String.mk title, natOfDigits st.1, st.2)

def zoneFullHeader? (s : String) : Option (String × Nat × Nat × Nat) :=
  (zoneHeaderCommon? s).bind fun c =>
  (eatLit "I".data (eatSpaces c.2.2)).bind fun l9 =>
  (eatLit "=".data (eatSpaces l9)).bind fun l10 =>
  (takePlus Char.isDigit (eatSpaces l10)).bind fun ic =>
  (eatLit ",".data (eatSpaces ic.2)).bind fun l12 =>
  (eatLit "J".data (eatSpaces l12)).bind fun l13 =>
  (eatLit "=".data (eatSpaces l13)).bind fun l14 =>
  (takePlus Char.isDigit (eatSpaces l14)).bind fun jc =>
  (eatLit ",".data (eatSpaces jc.2)).bind fun _ =>
  some (c.1, c.2.1, natOfDigits ic.1, natOfDigits jc.1)

/-- ZONE_PARTIAL_HEADER_REGEXP: `^ZONE *T *= *("[^"]*") *SOLUTIONTIME *=
*(\d+)$`; note group 1 keeps the surrounding quotes, as in the source. -/
def zonePartialHeader? (s : String) : Option (String × Nat) :=
  (zoneHeaderCommon? s).bind fun c =>
  if c.2.2.isEmpty then some ("\"" ++ c.1 ++ "\"", c.2.1) else none

/-- Integer value of an optionally signed digit string (exponent part). -/
def signedDigits? (l : List Char) : Option Int :=
  match l with
  | '+' :: r => if r.isEmpty then none else if r.all Char.isDigit then some (natOfDigits r) else none
  | '-' :: r => if r.isEmpty then none else if r.all Char.isDigit then some (-(natOfDigits r : Int)) else none
  | r => if r.isEmpty then none else if r.all Char.isDigit then some (natOfDigits r) else none

/-- Mantissa of a Python float literal: `digits [. digits]` or `. digits`
or `digits .`; returns the digits' value, the number of fractional digits,
and the unconsumed characters. -/
def floatMantissa? (l : List Char) : Option (Nat × Nat × List Char) :=
  let ip := l.takeWhile Char.isDigit
  let rest := l.drop ip.length
  match rest with
  | '.' :: r2 =>
    let fp := r2.takeWhile Char.isDigit
    if ip.isEmpty && fp.isEmpty then none
    else some (natOfDigits ip * 10 ^ fp.length + natOfDigits fp, fp.length, r2.drop fp.length)
  | _ => if ip.isEmpty then none else some (natOfDigits ip, 0, rest)

/-- The rational value `sign · m · 10^(e−s)`, built with `mkRat` so that it
evaluates by kernel reduction. -/
def floatVal (sign : Int) (m : Nat) (s : Nat) (e : Int) : ℚ :=
  if (s : Int) ≤ e then mkRat (sign * (m : Int) * (10 : Int) ^ (e - (s : Int)).toNat) 1
  else mkRat (sign * (m : Int)) ((10 : Nat) ^ ((s : Int) - e).toNat)

/-- Python `float(token)` on the decimal/exponent literals this format
carries, as `ℚ`: surrounding whitespace stripped, optional sign, mantissa,
optional `e`/`E` exponent; anything else (including `inf`/`nan`, which
cannot appear in this format's numeric data) is a `ValueError`, i.e. `none`. -/
def pyFloat? (s : String) : Option ℚ :=
  let t := (((s.data.dropWhile isPySpace).reverse.dropWhile isPySpace).reverse)
  let signAndRest : Int × List Char :=
    match t with
    | '+' :: r => (1, r)
    | '-' :: r => (-1, r)
    | r => (1, r)
  match floatMantissa? signAndRest.2 with
  | none => none
  | some (m, sc, rest) =>
    match rest with
    | [] => some (floatVal signAndRest.1 m sc 0)
    | 'e' :: r2 => (signedDigits? r2).map (fun e => floatVal signAndRest.1 m sc e)
    | 'E' :: r2 => (signedDigits? r2).map (fun e => floatVal signAndRest.1 m sc e)
    | _ => none

/-- Split a character list at every occurrence of `c`, keeping empty
pieces, as Python `str.split(c)` does. -/
def splitOnChar (c : Char) : List Char → List (List Char)
  | [] => [[]]
  | d :: ds =>
    let r := splitOnChar c ds
    if d = c then [] :: r
    else
      match r with
      | [] => [[d]]
      | h :: t => (d :: h) :: t

/-- Python `s.split(c)` for a one-character separator. -/
def pySplit (c : Char) (s : String) : List String :=
  (splitOnChar c s.data).map String.mk

/-- Python `re.split(r" +", s)` on an already stripped string: split on runs
of spaces; the empty string yields `[""]` as in Python. -/
def pySplitSpaces (s : String) : List String :=
  if s.data.isEmpty then [""]
  else (pySplit ' ' s).filter (fun t => !t.data.isEmpty)

/-- State of the source's `LineReader`: the unread lines of the file, the
most recently produced line, and whether it was produced by a peek (so the
next read returns it again). -/
structure LineReader where
  file : List String
  latestLine : String
  pushedBack : Bool
  deriving Repr, DecidableEq

/-- The `while not result.strip()` loop of `LineReader.__nextLine`: skip
blank lines; at end of file the result is the empty string. -/
def scanNonBlank : List String → String × List String
  | [] => ("", [])
  | l :: ls => if isBlank l then scanNonBlank ls else (l, ls)

/-- `LineReader.__nextLine(peeking)`. -/
def LineReader.nextLine (peeking : Bool) (r : LineReader) : String × LineReader :=
  let p := if r.pushedBack then (r.latestLine, r.file) else scanNonBlank r.file
  (p.1, ⟨p.2, p.1, peeking⟩)

def LineReader.getNextNotEmptyLine (r : LineReader) : String × LineReader :=
  r.nextLine false

def LineReader.peekNextNotEmptyLine (r : LineReader) : String × LineReader :=
  r.nextLine true

/-- `isEndOfFile`: the peeked line is falsy (empty). -/
def LineReader.isEndOfFile (r : LineReader) : Bool × LineReader :=
  let p := r.peekNextNotEmptyLine
  (p.1.data.isEmpty, p.2)

/-- `nextLineMatches` / `nextLineMatchesIgnoreCase`: peek, strip, and test
the given pattern (the case-insensitive variant is obtained by passing a
case-insensitive matcher, mirroring the two source methods). -/
def LineReader.nextLineMatches (pat : String → Bool) (r : LineReader) : Bool × LineReader :=
  let p := r.peekNextNotEmptyLine
  (pat (pyStrip p.1), p.2)

/-- Fuel bound used by line-consuming loops: one more than the number of
lines the reader can still produce. -/
def lrFuel (r : LineReader) : Nat :=
  r.file.length + (if r.pushedBack then 1 else 0) + 1

/-- An `element` of a data row: Python dict from variable name to value. -/
abbrev Element : Type := List (String × ℚ)

/-- Dict assignment `element[k] = v`: overwrite in place or append. -/
def elemSet (e : Element) (k : String) (v : ℚ) : Element :=
  if e.any (fun p => decide (p.1 = k)) then
    e.map (fun p => if p.1 = k then (k, v) else p)
  else e ++ [(k, v)]

/-- Dict lookup `element[k]`, `none` modelling `KeyError`. -/
def elemGet? (e : Element) (k : String) : Option ℚ :=
  (e.find? (fun p => decide (p.1 = k))).map (fun p => p.2)

/-- A geometric point `(x, y, 0.0)`. -/
abbrev Point3 : Type := ℚ × ℚ × ℚ

/-- One field's dict from `Point3` to value, modelled extensionally as the
lookup function: the source never enumerates a field dict (it only assigns
`fields[key][point] = v` and reads `field[point]`), so only lookups are
observable. -/
abbrev FieldMap : Type := Point3 → Option ℚ

/-- The `fields` dict from field name to its per-point dict; the outer dict
IS enumerated (`fields.keys()`), so it stays an ordered association list. -/
abbrev Fields : Type := List (String × FieldMap)

/-- The empty per-point dict. -/
def fmEmpty : FieldMap :=
  fun _ => none

/-- Dict assignment `field[p] = v`. -/
def fmSet (m : FieldMap) (p : Point3) (v : ℚ) : FieldMap :=
  fun q => if q = p then some v else m q

/-- Dict lookup `field[p]`, `none` modelling `KeyError`. -/
def fmGet? (m : FieldMap) (p : Point3) : Option ℚ :=
  m p

/-- `fields[k][p] = v` for a key `k` present in `fields`. -/
def fieldsSet (fs : Fields) (k : String) (p : Point3) (v : ℚ) : Fields :=
  fs.map (fun kv => if kv.1 = k then (k, fmSet kv.2 p v) else kv)

/-- `fields[k]`, defaulting to an empty dict for absent keys. -/
def fieldOf (fs : Fields) (k : String) : FieldMap :=
  match fs.find? (fun kv => decide (kv.1 = k)) with
  | some kv => kv.2
  | none => fmEmpty

/-- One zone's parsed state, fields as in the source's `Zone.__init__`. -/
structure Zone where
  title : String
  solutionTime : Int
  rowCount : Int
  columnCount : Int
  table : List (List Element)
  deriving Repr, DecidableEq

/-- `Zone()`. -/
def Zone.init : Zone :=
  ⟨"", -1, -1, -1, []⟩

/-- One timestep's parsed state, fields as in `Timestep.__init__`. -/
structure Timestep where
  title : String
  time : Int
  variableList : List String
  zones : List Zone
  deriving Repr, DecidableEq

/-- `Timestep()`. -/
def Timestep.init : Timestep :=
  ⟨"", -1, [], []⟩

/-- The inner loop of `Zone.readFromFile`: build one element from the
variables, indexing tokens as `numbers[j + k]` for the `k`-th variable —
exactly as the source does (`element[timestep.getVariable(k)] =
float(numbers[j + k])`). `none` models `IndexError` or `ValueError`. -/
def buildElemGo (numbers : List String) (j : Nat) : List String → Nat → Element → Option Element
  | [], _, acc => some acc
  | v :: vs, k, acc =>
    match numbers.get? (j + k) with
    | none => none
    | some tok =>
      match pyFloat? tok with
      | none => none
      | some q => buildElemGo numbers j vs (k + 1) (elemSet acc v q)

def buildElem (vars numbers : List String) (j : Nat) : Option Element :=
  buildElemGo numbers j vars 0 []

/-- `for j in range(self.getColumnCount())`: build the row's elements. -/
def buildRowGo (vars numbers : List String) : Nat → Nat → List Element → Option (List Element)
  | 0, _, acc => some acc
  | n + 1, j, acc =>
    match buildElem vars numbers j with
    | none => none
    | some e => buildRowGo vars numbers n (j + 1) (acc ++ [e])

def buildRow (vars numbers : List String) (cc : Int) : Option (List Element) :=
  buildRowGo vars numbers cc.toNat 0 []

/-- `Zone.__nextRowAvailable(i, lineReader)`: with unknown row count, stop
when the next line matches any of the four terminating patterns (threading
the reader state of each peek); with known row count, `i < rowCount`. -/
def Zone.nextRowAvailable (z : Zone) (i : Nat) (r : LineReader) : Bool × LineReader :=
  if z.rowCount = -1 then
    let m1 := r.nextLineMatches isZoneLine
    if m1.1 then (false, m1.2)
    else
      let m2 := m1.2.nextLineMatches isTimestepLastLine
      if m2.1 then (false, m2.2)
      else
        let m3 := m2.2.nextLineMatches isEndOfFileMarker
        if m3.1 then (false, m3.2)
        else
          let m4 := m3.2.nextLineMatches isCrackInitialNumber
          if m4.1 then (false, m4.2) else (true, m4.2)
  else (decide ((i : Int) < z.rowCount), r)

/-- The row-reading loop of `Zone.readFromFile`.  Each continuing iteration
consumes at least one line, so `lrFuel` at the call site is enough fuel;
exhausting it models the Python loop failing to terminate. -/
def Zone.readRows (timestep : Timestep) : Nat → Zone → Nat → LineReader → Option (Zone × LineReader)
  | 0, _, _, _ => none
  | fuel + 1, z, i, r =>
    let a := z.nextRowAvailable i r
    if a.1 then
      let c := a.2.getNextNotEmptyLine
      match buildRow timestep.variableList (pySplitSpaces (pyStrip c.1)) z.columnCount with
      | none => none
      | some row => Zone.readRows timestep fuel { z with table := z.table ++ [row] } (i + 1) c.2
    else some (z, a.2)

/-- `Zone.readFromFile(timestep, lineReader)`: consume the header line, try
the full then the partial header pattern (a header matching neither leaves
the defaults in place, as in the source), then read rows. -/
def Zone.readFromFile (self : Zone) (timestep : Timestep) (r : LineReader) : Option (Zone × LineReader) :=
  let h := r.getNextNotEmptyLine
  let header := pyStrip h.1
  let z0 : Zone :=
    match zoneFullHeader? header with
    | some q =>
      { self with title := q.1, solutionTime := (q.2.1 : Int),
                  rowCount := (q.2.2.1 : Int), columnCount := (q.2.2.2 : Int) }
    | none =>
      match zonePartialHeader? header with
      | some q => { self with title := q.1, solutionTime := (q.2 : Int), rowCount := -1, columnCount := 1 }
      | none => self
  Zone.readRows timestep (lrFuel h.2) z0 0 h.2

/-- `Timestep.__skipNumberBeforeTitle`. -/
def Timestep.skipNumberBeforeTitle (r : LineReader) : LineReader :=
  let m := r.nextLineMatches isCrackInitialNumber
  if m.1 then (m.2.getNextNotEmptyLine).2 else m.2

/-- `variable.strip().replace('"', '')` applied after splitting. -/
def removeQuotes (s : String) : String :=
  String.mk (s.data.filter (fun c => c ≠ '"'))

/-- The `while lineReader.nextLineMatches(ZONE_REGEXP)` loop of
`Timestep.readFromFile`; every iteration consumes at least the zone's
header line. -/
def Timestep.zoneLoop : Nat → Timestep → LineReader → Option (Timestep × LineReader)
  | 0, _, _ => none
  | fuel + 1, t, r =>
    let m := r.nextLineMatches isZoneLine
    if m.1 then
      match Zone.init.readFromFile t m.2 with
      | none => none
      | some zr => Timestep.zoneLoop fuel { t with zones := t.zones ++ [zr.1] } zr.2
    else some (t, m.2)

/-- `Timestep.readFromFile(lineReader, fileType)`: optional stray leading
number (CRACK), title line, variables line (the variable list is the text
after the last `=`, split on commas, stripped, quotes removed), the zone
loop, then the time: first zone's solutionTime for CRACK (an `IndexError`,
i.e. `none`, when no zone was read), else the trailer's `Iter` capture. -/
def Timestep.readFromFile (self : Timestep) (r : LineReader) (fileType : Char) : Option (Timestep × LineReader) :=
  let r0 := if fileType = CRACK_FILETYPE then Timestep.skipNumberBeforeTitle r else r
  let tl := r0.getNextNotEmptyLine
  match titleCapture? (pyStrip tl.1) with
  | none => none
  | some title =>
    let vl := tl.2.getNextNotEmptyLine
    if isVariablesLine (pyStrip vl.1) then
      let variablesText := (pySplit '=' (pyStrip vl.1)).getLastD ""
      let vars := (pySplit ',' variablesText).map (fun v => removeQuotes (pyStrip v))
      let t2 := { self with title := title, variableList := vars }
      match Timestep.zoneLoop (lrFuel vl.2) t2 vl.2 with
      | none => none
      | some tr =>
        if fileType = CRACK_FILETYPE then
          match tr.1.zones with
          | [] => none
          | z :: _ => some ({ tr.1 with time := z.solutionTime }, tr.2)
        else
          let ll := tr.2.getNextNotEmptyLine
          match trailerIter? (pyStrip ll.1) with
          | none => none
          | some n => some ({ tr.1 with time := (n : Int) }, ll.2)
    else none

/-- `Timestep.checkZonesSolutionTimes`: collect one report line per zone
whose solutionTime differs from the timestep's time (modelling the `print`
calls) and return `False` exactly when some zone disagreed. -/
def Timestep.checkZonesSolutionTimes (t : Timestep) : List String × Bool :=
  t.zones.foldl
    (fun acc z =>
      if z.solutionTime ≠ t.time then
        (acc.1 ++ ["zone " ++ z.title ++ " has solutionTime " ++ toString z.solutionTime ++
                   " instead of " ++ toString t.time ++ "!"], false)
      else acc)
    ([], true)

/-- Python dict-key dedup used for `fields`: first occurrence kept, order
preserved. -/
def dedupFirst (l : List String) : List String :=
  l.foldl (fun acc k => if k ∈ acc then acc else acc ++ [k]) []

/-- The field-name set of `convertToVTKPolyData`: every variable except `X`
and `Y`, in first-seen order. -/
def fieldNamesOf (t : Timestep) : List String :=
  dedupFirst (t.variableList.filter (fun v => decide (v ≠ "X" ∧ v ≠ "Y")))

/-- `point = (element['X'], element['Y'], 0.0)`; `none` models `KeyError`. -/
def pointOf? (e : Element) : Option Point3 :=
  match elemGet? e "X" with
  | none => none
  | some x =>
    match elemGet? e "Y" with
    | none => none
    | some y => some (x, y, 0)

/-- Total companion of `pointOf?` (they agree whenever `pointOf?` succeeds). -/
def pointOfD (e : Element) : Point3 :=
  ((elemGet? e "X").getD 0, (elemGet? e "Y").getD 0, 0)

/-- `tempPoints.add(point)` with the set modelled in insertion order. -/
def addPoint (ps : List Point3) (p : Point3) : List Point3 :=
  if p ∈ ps then ps else ps ++ [p]

/-- `points.index(point)` (the index of the first occurrence; out of range
when absent, which cannot happen at the call site). -/
def pIndex : List Point3 → Point3 → Nat
  | [], _ => 0
  | q :: qs, p => if q = p then 0 else pIndex qs p + 1

/-- All elements of a zone in row/column traversal order. -/
def zoneElems (z : Zone) : List Element :=
  z.table.flatten

/-- All elements of a timestep in zone/row/column traversal order. -/
def allElems (t : Timestep) : List Element :=
  (t.zones.map zoneElems).flatten

/-- `for key in fields.keys(): fields[key][point] = element[key]`. -/
def setFieldsFor : List String → Fields → Point3 → Element → Option Fields
  | [], fs, _, _ => some fs
  | k :: ks, fs, p, e =>
    match elemGet? e k with
    | none => none
    | some v => setFieldsFor ks (fieldsSet fs k p v) p e

/-- The per-element body of the conversion loop: form the point, add it to
the point set, append it to the current zone's cell, write every field. -/
def procElems (fieldNames : List String) :
    List Element → List Point3 → List Point3 → Fields →
    Option (List Point3 × List Point3 × Fields)
  | [], tp, cell, fs => some (tp, cell, fs)
  | e :: es, tp, cell, fs =>
    match pointOf? e with
    | none => none
    | some p =>
      match setFieldsFor fieldNames fs p e with
      | none => none
      | some fs2 => procElems fieldNames es (addPoint tp p) (cell ++ [p]) fs2

/-- The per-zone loop of the conversion: one cell per zone, points and
fields threaded through. -/
def procZones (fieldNames : List String) :
    List Zone → List Point3 → List (List Point3) → Fields →
    Option (List Point3 × List (List Point3) × Fields)
  | [], tp, tc, fs => some (tp, tc, fs)
  | z :: zs, tp, tc, fs =>
    match procElems fieldNames (zoneElems z) tp [] fs with
    | none => none
    | some a => procZones fieldNames zs a.1 (tc ++ [a.2.1]) a.2.2

/-- The converted mesh, fields as in `VTKPolyData.__init__`. -/
structure VTKPolyData where
  title : String
  time : Int
  points : List Point3
  cells : List (List Nat)
  fields : Fields

/-- `VTKPolyData()`. -/
def VTKPolyData.init : VTKPolyData :=
  ⟨"", -1, [], [], []⟩

/-- `Timestep.convertToVTKPolyData`: field dicts keyed by the non-X/Y
variables, the traversal filling points/cells/fields, then cells translated
from points to indices.  The `set` of temporary points is enumerated in
first-insertion order here (Python leaves its iteration order to the hash
implementation). -/
def Timestep.convertToVTKPolyData (t : Timestep) : Option VTKPolyData :=
  let fieldNames := fieldNamesOf t
  let initFields : Fields := fieldNames.map (fun k => (k, fmEmpty))
  match procZones fieldNames t.zones [] [] initFields with
  | none => none
  | some acc =>
    let points := acc.1
    let cells := acc.2.1.map (fun c => c.map (fun p => pIndex points p))
    some ⟨t.title, t.time, points, cells, acc.2.2⟩

/-- `str.replace(" ", "")` as used on titles and field names. -/
def removeSpaces (s : String) : String :=
  String.mk (s.data.filter (fun c => c ≠ ' '))

/-- Python `str.zfill`. -/
def pyZfill (s : String) (w : Nat) : String :=
  match s.data with
  | '-' :: rest => String.mk ('-' :: (List.replicate (w - s.length) '0' ++ rest))
  | '+' :: rest => String.mk ('+' :: (List.replicate (w - s.length) '0' ++ rest))
  | _ => String.mk (List.replicate (w - s.length) '0' ++ s.data)

/-- `VTKPolyData.__getFileName`. -/
def VTKPolyData.getFileName (d : VTKPolyData) (originalFileName : String) : String :=
  "./converted" ++ originalFileName ++ "/" ++ originalFileName ++ "_" ++
    removeSpaces d.title ++ "_" ++ pyZfill (toString d.time) 6 ++ ".vtk"

/-- Rendering of a numeric value in the output (`str(float)`); the exact
digit format of Python floats is not claim-relevant, the value is. -/
def qstr (q : ℚ) : String :=
  toString q

def VTKPolyData.headerLines (d : VTKPolyData) : List String :=
  ["# vtk DataFile Version 3.0", removeSpaces d.title, "ASCII", "DATASET POLYDATA"]

def VTKPolyData.pointsLines (d : VTKPolyData) : List String :=
  ("POINTS " ++ toString d.points.length ++ " double") ::
    d.points.map (fun p => qstr p.1 ++ " " ++ qstr p.2.1 ++ " " ++ qstr p.2.2)

/-- `VTKPolyData.__getCellType`. -/
def VTKPolyData.getCellType (cellSize : Nat) : String :=
  if cellSize = 2 then "LINES" else "POLYGONS"

/-- `VTKPolyData.__getTotalCellsSize`. -/
def VTKPolyData.getTotalCellsSize (d : VTKPolyData) : Nat :=
  d.cells.foldl (fun acc c => acc + (1 + c.length)) 0

/-- `VTKPolyData.__getCellTextLine`. -/
def VTKPolyData.getCellTextLine (cell : List Nat) : String :=
  String.intercalate " " (toString cell.length :: cell.map toString)

/-- `VTKPolyData.__writeCellsToFile`: `none` models the `IndexError` of
`self.cells[0]` on an empty cell list. -/
def VTKPolyData.cellsLines? (d : VTKPolyData) : Option (List String) :=
  match d.cells with
  | [] => none
  | c0 :: _ =>
    some ((VTKPolyData.getCellType c0.length ++ " " ++ toString d.cells.length ++ " " ++
            toString d.getTotalCellsSize) :: d.cells.map VTKPolyData.getCellTextLine)

/-- Per-point value lines of one field; emission stops at the first point
missing from the field's dict (`KeyError`), the flag recording success. -/
def fieldValueLines (m : FieldMap) : List Point3 → List String × Bool
  | [] => ([], true)
  | p :: ps =>
    match fmGet? m p with
    | none => ([], false)
    | some v =>
      let rest := fieldValueLines m ps
      (qstr v :: rest.1, rest.2)

/-- `SCALARS`/`LOOKUP_TABLE`/values blocks for each field in order. -/
def fieldsLines (points : List Point3) : Fields → List String × Bool
  | [] => ([], true)
  | kv :: rest =>
    let vl := fieldValueLines kv.2 points
    if vl.2 then
      let rl := fieldsLines points rest
      (("SCALARS " ++ removeSpaces kv.1 ++ " double 1") :: "LOOKUP_TABLE default" :: (vl.1 ++ rl.1), rl.2)
    else
      (("SCALARS " ++ removeSpaces kv.1 ++ " double 1") :: "LOOKUP_TABLE default" :: vl.1, false)

/-- `VTKPolyData.__writePointDataToFile`. -/
def VTKPolyData.pointDataLines (d : VTKPolyData) : List String × Bool :=
  let fl := fieldsLines d.points d.fields
  (("POINT_DATA " ++ toString d.points.length) :: fl.1, fl.2)

/-- `VTKPolyData.writeToFile`, as the sequence of lines written to the
output file and a success flag (`false` when a Python exception would have
interrupted the write partway). The cells block is skipped exactly for the
VON_MISES file type. -/
def VTKPolyData.writeLines (d : VTKPolyData) (fileType : Char) : List String × Bool :=
  let base := d.headerLines ++ d.pointsLines
  if fileType ≠ VON_MISES_FILETYPE then
    match d.cellsLines? with
    | none => (base, false)
    | some cl =>
      let pd := d.pointDataLines
      (base ++ cl ++ pd.1, pd.2)
  else
    let pd := d.pointDataLines
    (base ++ pd.1, pd.2)

/-- The driver's `while` loop over timesteps: stop successfully at an
end-of-file marker or end of input; parse a timestep; on a solution-time
check failure report no file and stop (`False` mirrors both the script's
`success = False` and an uncaught exception aborting the run).  Writes are
returned as (file name, mesh) pairs in order. -/
def converterLoop (fileType : Char) (originalFileName : String) :
    Nat → LineReader → List (String × VTKPolyData) → List (String × VTKPolyData) × Bool
  | 0, _, acc => (acc, false)
  | fuel + 1, r, acc =>
    let m := r.nextLineMatches isEndOfFileMarker
    if m.1 then (acc, true)
    else
      let e := m.2.isEndOfFile
      if e.1 then (acc, true)
      else
        match Timestep.init.readFromFile e.2 fileType with
        | none => (acc, false)
        | some tr =>
          if (tr.1.checkZonesSolutionTimes).2 then
            match tr.1.convertToVTKPolyData with
            | none => (acc, false)
            | some d =>
              converterLoop fileType originalFileName fuel tr.2 (acc ++ [(d.getFileName originalFileName, d)])
          else (acc, false)

/-- A fresh reader over a list of input lines, as `LineReader(file)`. -/
def mkReader (ls : List String) : LineReader :=
  ⟨ls, "", false⟩

/-- Input of the zone-parsing examples: a full zone header declaring one row
of two points, and one data row of six tokens (three variables). -/
def c1Reader : LineReader :=
  mkReader ["ZONE T=\"Z1\" SOLUTIONTIME=3 I=1, J=2,", "0.0 0.0 1.5 1.0 0.0 2.5"]

/-- The spec's end-to-end DAMAGE example input. -/
def c2Lines : List String :=
  ["TITLE = \"T1\"",
   "VARIABLES = \"X\",\"Y\",\"S\"",
   "ZONE T=\"Z1\" SOLUTIONTIME=3 I=1, J=2,",
   "0.0 0.0 1.5 1.0 0.0 2.5",
   "Load factor = 1.0 Total deformation = 1.0 Iter = 3"]

/-- A timestep whose single zone holds the same (X, Y) pair in two elements
with identical field values. -/
def c4t : Timestep :=
  ⟨"T", 0, ["X", "Y", "F"],
   [⟨"Z", 0, 2, 1, [[[("X", 1), ("Y", 2), ("F", 5)]], [[("X", 1), ("Y", 2), ("F", 5)]]]⟩]⟩

/-- A timestep writing the same point's field twice with different values. -/
def c5t : Timestep :=
  ⟨"T", 0, ["X", "Y", "F"],
   [⟨"Z", 0, 2, 1, [[[("X", 0), ("Y", 0), ("F", 1)]], [[("X", 0), ("Y", 0), ("F", 2)]]]⟩]⟩

/-- A zone with an explicit row count of two. -/
def c6z : Zone :=
  ⟨"Z", 1, 2, 1, []⟩

/-- The timestep owning `c6z` (only its variable list matters). -/
def c6ts : Timestep :=
  ⟨"T", 1, ["X"], []⟩

/-- Input whose timestep trailer declares Iter = 3 while its zone declares
SOLUTIONTIME = 5, so the solution-time validation fails. -/
def c7Lines : List String :=
  ["TITLE = \"T1\"",
   "VARIABLES = \"X\",\"Y\"",
   "ZONE T=\"Z1\" SOLUTIONTIME=5 I=1, J=1,",
   "0.0 0.0",
   "Load factor = 1.0 Total deformation = 1.0 Iter = 3"]

/-- The reader state after the driver's two peeks on `c7Lines`. -/
def c7r2 : LineReader :=
  ⟨["VARIABLES = \"X\",\"Y\"", "ZONE T=\"Z1\" SOLUTIONTIME=5 I=1, J=1,", "0.0 0.0",
    "Load factor = 1.0 Total deformation = 1.0 Iter = 3"],
   "TITLE = \"T1\"", true⟩

/-- The timestep parsed from `c7Lines` (time 3 from the trailer, zone
solutionTime 5). -/
def c7t : Timestep :=
  ⟨"T1", 3, ["X", "Y"], [⟨"Z1", 5, 1, 1, [[[("X", 0), ("Y", 0)]]]⟩]⟩

/-- The reader state after parsing the timestep of `c7Lines`. -/
def c7r3 : LineReader :=
  ⟨[], "Load factor = 1.0 Total deformation = 1.0 Iter = 3", false⟩

/-- A mesh with one point, one two-vertex cell, one field. -/
def c8m : VTKPolyData :=
  ⟨"T", 1, [(0, 0, 0)], [[0, 0]], [("F", fmSet fmEmpty (0, 0, 0) 1)]⟩

/-- A CRACK input whose single zone uses the partial header form. -/
def c10Reader : LineReader :=
  mkReader ["TITLE = \"T\"", "VARIABLES = \"X\"", "ZONE T=\"Z\" SOLUTIONTIME=2", "## ##"]

/-- The timestep parsed from `c10Reader` (partial-header zone, so the
stored zone title keeps its quotes, a quirk of the source's group(1)). -/
def c10t : Timestep :=
  ⟨"T", 2, ["X"], [⟨"\"Z\"", 2, -1, 1, []⟩]⟩

/-- The reader state after parsing the timestep of `c10Reader`. -/
def c10r : LineReader :=
  ⟨[], "## ##", true⟩

/-- The mesh converted from `c4t`. -/
def c4m : VTKPolyData :=
  (c4t.convertToVTKPolyData).getD VTKPolyData.init

/-- The mesh converted from `c5t`. -/
def c5m : VTKPolyData :=
  (c5t.convertToVTKPolyData).getD VTKPolyData.init

/-- The zone produced by reading two rows (`0.0`, `1.0`) into `c6z`. -/
def c6z2 : Zone :=
  ⟨"Z", 1, 2, 1, [[[("X", 0)]], [[("X", 1)]]]⟩

/-- The reader state after those two rows. -/
def c6r2 : LineReader :=
  ⟨[], "1.0", false⟩

theorem peek_of_peeked (r : LineReader) :
    ((r.peekNextNotEmptyLine).2).peekNextNotEmptyLine
      = ((r.peekNextNotEmptyLine).1, (r.peekNextNotEmptyLine).2) := by
  cases r with
  | mk file latest pushed =>
    cases pushed <;> simp [LineReader.peekNextNotEmptyLine, LineReader.nextLine]

theorem nextLineMatches_eq (p : String → Bool) (r : LineReader) :
    r.nextLineMatches p = (p (pyStrip (r.peekNextNotEmptyLine).1), (r.peekNextNotEmptyLine).2) := by
  rfl

/-- C9: peeking twice with no intervening consume returns the identical line
and leaves the reader state unchanged; a consume immediately after a peek
returns exactly the peeked line; that consume reads nothing further from the
underlying file, so the reader never holds more than the single peeked line
of lookahead. -/
theorem c9_line_reader_lookahead (r : LineReader) :
    (((r.peekNextNotEmptyLine).2).peekNextNotEmptyLine).1 = (r.peekNextNotEmptyLine).1 ∧
    (((r.peekNextNotEmptyLine).2).peekNextNotEmptyLine).2 = (r.peekNextNotEmptyLine).2 ∧
    (((r.peekNextNotEmptyLine).2).getNextNotEmptyLine).1 = (r.peekNextNotEmptyLine).1 ∧
    ((((r.peekNextNotEmptyLine).2).getNextNotEmptyLine).2).file = ((r.peekNextNotEmptyLine).2).file := by
  cases r with
  | mk file latest pushed =>
    cases pushed <;>
      simp [LineReader.peekNextNotEmptyLine, LineReader.getNextNotEmptyLine, LineReader.nextLine]

/-- C1: the parser does NOT give the j-th point of a row its own disjoint
block of `variableCount` tokens starting at `j*variableCount`: it assigns
`numbers[j + k]` to the k-th variable.  On the row
`0.0 0.0 1.5 1.0 0.0 2.5` with variables X, Y, S and two points per row,
point 1 receives X = 0.0, Y = 1.5, S = 1.0 (tokens 1, 2, 3), not the
claimed X = 1.0, Y = 0.0, S = 2.5 (tokens 3, 4, 5). -/
theorem c1_token_block_assignment :
    (Zone.init.readFromFile { Timestep.init with variableList := ["X", "Y", "S"] } c1Reader).map
        (fun zr => zr.1.table.map (fun row => row.map
          (fun e => (elemGet? e "X", elemGet? e "Y", elemGet? e "S"))))
      = some [[(some 0, some 0, some (mkRat 3 2)), (some 0, some (mkRat 3 2), some 1)]] := by
  decide

/-- C2: on the spec's end-to-end DAMAGE example the code produces the
output path `./convertedinput/input_T1_000003.vtk` as claimed, but the mesh
is NOT the claimed one: because of the `numbers[j + k]` indexing the points
are (0,0,0) and (0,1.5,0) with S values 1.5 and 1.0; the claimed point
(1,0,0) is not in the mesh at all (so no enumeration order of the Python
set can produce the claimed mesh). -/
theorem c2_damage_end_to_end :
    (((Timestep.init.readFromFile (mkReader c2Lines) DAMAGE_FILETYPE).bind
        (fun tr => (tr.1.convertToVTKPolyData).map (fun d => d.points)))
      = some [(0, 0, 0), (0, mkRat 3 2, 0)]) ∧
    (((Timestep.init.readFromFile (mkReader c2Lines) DAMAGE_FILETYPE).bind
        (fun tr => (tr.1.convertToVTKPolyData).map (fun d => d.cells)))
      = some [[0, 1]]) ∧
    (((Timestep.init.readFromFile (mkReader c2Lines) DAMAGE_FILETYPE).bind
        (fun tr => (tr.1.convertToVTKPolyData).map (fun d => d.fields.map (fun kv => kv.1))))
      = some ["S"]) ∧
    (((Timestep.init.readFromFile (mkReader c2Lines) DAMAGE_FILETYPE).bind
        (fun tr => (tr.1.convertToVTKPolyData).map
          (fun d => (fmGet? (fieldOf d.fields "S") (0, 0, 0),
                     fmGet? (fieldOf d.fields "S") (0, mkRat 3 2, 0)))))
      = some (some (mkRat 3 2), some 1)) ∧
    (((Timestep.init.readFromFile (mkReader c2Lines) DAMAGE_FILETYPE).bind
        (fun tr => (tr.1.convertToVTKPolyData).map (fun d => d.getFileName "input")))
      = some "./convertedinput/input_T1_000003.vtk") ∧
    (((Timestep.init.readFromFile (mkReader c2Lines) DAMAGE_FILETYPE).bind
        (fun tr => (tr.1.convertToVTKPolyData).map
          (fun d => decide (((1 : ℚ), (0 : ℚ), (0 : ℚ)) ∈ d.points))))
      = some false) :=
  ⟨by decide, by decide, by decide, by decide, by decide, by decide⟩

/-- C10: a successful CRACK timestep parse always carries at least one
zone: the time-derivation step reads `zones[0]`, which on an empty zone
list is an out-of-bounds access (modelled by `none`), so one or more zones
is a necessary precondition for CRACK timestep parsing to complete. -/
theorem c10_crack_needs_zone (self : Timestep) (r : LineReader) (t : Timestep) (r2 : LineReader)
    (h : self.readFromFile r CRACK_FILETYPE = some (t, r2)) :
    t.zones ≠ [] := by
  unfold Timestep.readFromFile at h
  simp only [↓reduceIte] at h
  split at h
  · exact absurd h (by simp)
  · split at h
    · split at h
      · exact absurd h (by simp)
      · split at h
        · exact absurd h (by simp)
        · rename_i z tail heq
          injection h with h'
          have h1 : t.zones = z :: tail := by
            rw [← heq]
            exact congrArg (fun p => p.1.zones) h'.symm
          rw [h1]
          exact List.cons_ne_nil z tail
    · exact absurd h (by simp)

theorem c10_crack_needs_zone_witness :
    Timestep.init.readFromFile c10Reader CRACK_FILETYPE = some (c10t, c10r) ∧ c10t.zones ≠ [] :=
  ⟨by decide, c10_crack_needs_zone Timestep.init c10Reader c10t c10r (by decide)⟩

theorem nextRowAvailable_unknown (z : Zone) (i : Nat) (r : LineReader) (hrc : z.rowCount = -1) :
    (z.nextRowAvailable i r).1
      = !(isZoneLine (pyStrip (r.peekNextNotEmptyLine).1)
          || isTimestepLastLine (pyStrip (r.peekNextNotEmptyLine).1)
          || isEndOfFileMarker (pyStrip (r.peekNextNotEmptyLine).1)
          || isCrackInitialNumber (pyStrip (r.peekNextNotEmptyLine).1)) := by
  unfold Zone.nextRowAvailable
  rw [if_pos hrc]
  simp only [nextLineMatches_eq, peek_of_peeked]
  by_cases h1 : isZoneLine (pyStrip (r.peekNextNotEmptyLine).1) <;>
    by_cases h2 : isTimestepLastLine (pyStrip (r.peekNextNotEmptyLine).1) <;>
      by_cases h3 : isEndOfFileMarker (pyStrip (r.peekNextNotEmptyLine).1) <;>
        by_cases h4 : isCrackInitialNumber (pyStrip (r.peekNextNotEmptyLine).1) <;>
          simp [h1, h2, h3, h4]

theorem nextRowAvailable_known (z : Zone) (i : Nat) (r : LineReader) (hrc : z.rowCount ≠ -1) :
    z.nextRowAvailable i r = (decide ((i : Int) < z.rowCount), r) := by
  unfold Zone.nextRowAvailable
  rw [if_neg hrc]

theorem readRows_length (ts : Timestep) (fuel : Nat) :
    ∀ (z : Zone) (i : Nat) (r : LineReader) (z2 : Zone) (r2 : LineReader),
      0 ≤ z.rowCount → (i : Int) ≤ z.rowCount →
      Zone.readRows ts fuel z i r = some (z2, r2) →
      (z2.table.length : Int) = z.table.length + (z.rowCount - i) := by
  induction fuel with
  | zero =>
    intro z i r z2 r2 h0 hi h
    exact absurd h (by simp [Zone.readRows])
  | succ fuel ih =>
    intro z i r z2 r2 h0 hi h
    have hrc : z.rowCount ≠ -1 := by omega
    unfold Zone.readRows at h
    rw [nextRowAvailable_known z i r hrc] at h
    by_cases hlt : (i : Int) < z.rowCount
    · rw [if_pos (by simpa using hlt)] at h
      dsimp only at h
      split at h
      · exact absurd h (by simp)
      · rename_i row heq
        have := ih _ _ _ _ _ (by simpa using h0) (by push_cast; omega) h
        simp only [List.length_append, List.length_cons, List.length_nil] at this
        push_cast at this ⊢
        omega
    · rw [if_neg (by simpa using hlt)] at h
      injection h with h'
      have hz : z2 = z := congrArg (fun p => p.1) h'.symm
      have : (i : Int) = z.rowCount := by omega
      rw [hz]
      omega

/-- C6: with the unknown-row-count sentinel (-1) the zone parser's
row-availability test is false exactly when the next unconsumed line
matches the generic zone pattern, the (case-insensitive) timestep-trailer
pattern, the end-of-file marker, or the numeric-only pattern; with an
explicit row count the test is `i < rowCount` independent of the reader,
and a successful row-reading loop over a zone with row count `n ≥ i` reads
exactly `n - i` further rows, regardless of the content of subsequent
lines. -/
theorem c6_row_availability :
    (∀ (z : Zone) (i : Nat) (r : LineReader), z.rowCount = -1 →
       (z.nextRowAvailable i r).1
         = !(isZoneLine (pyStrip (r.peekNextNotEmptyLine).1)
             || isTimestepLastLine (pyStrip (r.peekNextNotEmptyLine).1)
             || isEndOfFileMarker (pyStrip (r.peekNextNotEmptyLine).1)
             || isCrackInitialNumber (pyStrip (r.peekNextNotEmptyLine).1))) ∧
    (∀ (z : Zone) (i : Nat) (r : LineReader), z.rowCount ≠ -1 →
       z.nextRowAvailable i r = (decide ((i : Int) < z.rowCount), r)) ∧
    (∀ (ts : Timestep) (fuel : Nat) (z : Zone) (i : Nat) (r : LineReader) (z2 : Zone) (r2 : LineReader),
       0 ≤ z.rowCount → (i : Int) ≤ z.rowCount →
       Zone.readRows ts fuel z i r = some (z2, r2) →
       (z2.table.length : Int) = z.table.length + (z.rowCount - i)) :=
  ⟨nextRowAvailable_unknown, nextRowAvailable_known,
   fun ts fuel => readRows_length ts fuel⟩

theorem c6_row_availability_witness :
    (Zone.init.rowCount = -1 ∧
     (Zone.init.nextRowAvailable 0 (mkReader ["## ##"])).1
       = !(isZoneLine (pyStrip ((mkReader ["## ##"]).peekNextNotEmptyLine).1)
           || isTimestepLastLine (pyStrip ((mkReader ["## ##"]).peekNextNotEmptyLine).1)
           || isEndOfFileMarker (pyStrip ((mkReader ["## ##"]).peekNextNotEmptyLine).1)
           || isCrackInitialNumber (pyStrip ((mkReader ["## ##"]).peekNextNotEmptyLine).1))) ∧
    (c6z.rowCount ≠ -1 ∧ c6z.nextRowAvailable 5 c6r2 = (decide ((5 : Int) < c6z.rowCount), c6r2)) ∧
    (0 ≤ c6z.rowCount ∧ (0 : Int) ≤ c6z.rowCount ∧
     Zone.readRows c6ts 3 c6z 0 (mkReader ["0.0", "1.0"]) = some (c6z2, c6r2) ∧
     (c6z2.table.length : Int) = c6z.table.length + (c6z.rowCount - 0)) :=
  ⟨⟨rfl, c6_row_availability.1 Zone.init 0 (mkReader ["## ##"]) rfl⟩,
   ⟨by decide, c6_row_availability.2.1 c6z 5 c6r2 (by decide)⟩,
   ⟨by decide, by decide, by decide,
    c6_row_availability.2.2 c6ts 3 c6z 0 (mkReader ["0.0", "1.0"]) c6z2 c6r2
      (by decide) (by decide) (by decide)⟩⟩

theorem check_fold_aux (time : Int) (zs : List Zone) : ∀ (msgs : List String) (b : Bool),
    zs.foldl
      (fun acc z =>
        if z.solutionTime ≠ time then
          (acc.1 ++ ["zone " ++ z.title ++ " has solutionTime " ++ toString z.solutionTime ++
                     " instead of " ++ toString time ++ "!"], false)
        else acc)
      (msgs, b)
    = (msgs ++ (zs.filter (fun z => decide (z.solutionTime ≠ time))).map
          (fun z => "zone " ++ z.title ++ " has solutionTime " ++ toString z.solutionTime ++
                    " instead of " ++ toString time ++ "!"),
       b && zs.all (fun z => decide (z.solutionTime = time))) := by
  induction zs with
  | nil => intro msgs b; simp
  | cons z zs ih =>
    intro msgs b
    rw [List.foldl_cons]
    dsimp only
    by_cases hz : z.solutionTime = time
    · rw [if_neg (not_not_intro hz), ih]
      simp [List.filter_cons, List.all_cons, hz]
    · rw [if_pos hz, ih]
      simp [List.filter_cons, List.all_cons, hz, List.append_assoc]

theorem checkZones_spec (t : Timestep) :
    t.checkZonesSolutionTimes
      = ((t.zones.filter (fun z => decide (z.solutionTime ≠ t.time))).map
           (fun z => "zone " ++ z.title ++ " has solutionTime " ++ toString z.solutionTime ++
                     " instead of " ++ toString t.time ++ "!"),
         t.zones.all (fun z => decide (z.solutionTime = t.time))) := by
  unfold Timestep.checkZonesSolutionTimes
  rw [check_fold_aux]
  simp

theorem driver_stops (ft : Char) (ofn : String) (fuel : Nat) (r r1 r2 r3 : LineReader)
    (t : Timestep) (acc : List (String × VTKPolyData))
    (h1 : r.nextLineMatches isEndOfFileMarker = (false, r1))
    (h2 : r1.isEndOfFile = (false, r2))
    (h3 : Timestep.init.readFromFile r2 ft = some (t, r3))
    (h4 : (t.checkZonesSolutionTimes).2 = false) :
    converterLoop ft ofn (fuel + 1) r acc = (acc, false) := by
  unfold converterLoop
  rw [h1]
  dsimp only
  rw [h2]
  dsimp only
  rw [h3]
  dsimp only
  rw [h4]
  simp

/-- C7: the solution-time validation reports one failure line for each (and
only each) zone whose solutionTime differs from the timestep's time, and
returns failure exactly when at least one zone disagrees; when it fails,
the driver loop emits no file for that timestep and stops processing the
rest of the input, returning the writes made so far and failure.  (The
validation itself only reads the Timestep; in this pure embedding it takes
the Timestep as an argument and returns only the report, mirroring the
source method, which mutates nothing.) -/
theorem c7_solution_time_validation :
    (∀ t : Timestep,
       t.checkZonesSolutionTimes
         = ((t.zones.filter (fun z => decide (z.solutionTime ≠ t.time))).map
              (fun z => "zone " ++ z.title ++ " has solutionTime " ++ toString z.solutionTime ++
                        " instead of " ++ toString t.time ++ "!"),
            t.zones.all (fun z => decide (z.solutionTime = t.time)))) ∧
    (∀ (ft : Char) (ofn : String) (fuel : Nat) (r r1 r2 r3 : LineReader) (t : Timestep)
       (acc : List (String × VTKPolyData)),
       r.nextLineMatches isEndOfFileMarker = (false, r1) →
       r1.isEndOfFile = (false, r2) →
       Timestep.init.readFromFile r2 ft = some (t, r3) →
       (t.checkZonesSolutionTimes).2 = false →
       converterLoop ft ofn (fuel + 1) r acc = (acc, false)) :=
  ⟨checkZones_spec, driver_stops⟩

theorem c7_solution_time_validation_witness :
    ((mkReader c7Lines).nextLineMatches isEndOfFileMarker = (false, c7r2) ∧
     c7r2.isEndOfFile = (false, c7r2) ∧
     Timestep.init.readFromFile c7r2 DAMAGE_FILETYPE = some (c7t, c7r3) ∧
     (c7t.checkZonesSolutionTimes).2 = false) ∧
    converterLoop DAMAGE_FILETYPE "input" 1 (mkReader c7Lines) [] = ([], false) :=
  ⟨⟨by decide, by decide, by decide, by decide⟩,
   c7_solution_time_validation.2 DAMAGE_FILETYPE "input" 0 (mkReader c7Lines) c7r2 c7r2 c7r3 c7t []
     (by decide) (by decide) (by decide) (by decide)⟩

/-- C8: a mesh written with the VON_MISES file type contains no cells block
at all — its output is exactly header, points and point-data blocks,
whatever the cell list holds; for every other file type (whenever the cells
block is writable, i.e. the write does not die on `cells[0]`) the cells
block appears between the points block and the point-data block. -/
theorem c8_von_mises_cells :
    (∀ d : VTKPolyData,
       d.writeLines VON_MISES_FILETYPE
         = (d.headerLines ++ d.pointsLines ++ (d.pointDataLines).1, (d.pointDataLines).2)) ∧
    (∀ (d : VTKPolyData) (ft : Char) (cl : List String),
       ft ≠ VON_MISES_FILETYPE → d.cellsLines? = some cl →
       (d.writeLines ft).1 = d.headerLines ++ d.pointsLines ++ cl ++ (d.pointDataLines).1) := by
  constructor
  · intro d
    unfold VTKPolyData.writeLines
    rw [if_neg (not_not_intro rfl)]
  · intro d ft cl hft hcl
    unfold VTKPolyData.writeLines
    rw [if_pos hft, hcl]

theorem c8_von_mises_cells_witness :
    (c8m.writeLines VON_MISES_FILETYPE
       = (c8m.headerLines ++ c8m.pointsLines ++ (c8m.pointDataLines).1, (c8m.pointDataLines).2)) ∧
    (DAMAGE_FILETYPE ≠ VON_MISES_FILETYPE ∧
     c8m.cellsLines? = some ["LINES 1 3", "2 0 0"] ∧
     (c8m.writeLines DAMAGE_FILETYPE).1
       = c8m.headerLines ++ c8m.pointsLines ++ ["LINES 1 3", "2 0 0"] ++ (c8m.pointDataLines).1) :=
  ⟨c8_von_mises_cells.1 c8m,
   by decide, by decide,
   c8_von_mises_cells.2 c8m DAMAGE_FILETYPE ["LINES 1 3", "2 0 0"] (by decide) (by decide)⟩

theorem fmGet?_fmSet (m : FieldMap) (p : Point3) (v : ℚ) (q : Point3) :
    fmGet? (fmSet m p v) q = if q = p then some v else fmGet? m q := rfl

theorem fieldsSet_keys (fs : Fields) (k : String) (p : Point3) (v : ℚ) :
    (fieldsSet fs k p v).map (fun kv => kv.1) = fs.map (fun kv => kv.1) := by
  unfold fieldsSet
  rw [List.map_map]
  apply List.map_congr_left
  intro kv _
  by_cases h : kv.1 = k <;> simp [h, Function.comp]

theorem fieldOf_cons (kv : String × FieldMap) (fs : Fields) (F : String) :
    fieldOf (kv :: fs) F = if kv.1 = F then kv.2 else fieldOf fs F := by
  unfold fieldOf
  rw [List.find?_cons]
  by_cases h : kv.1 = F <;> simp [h]

theorem fieldsSet_cons (kv : String × FieldMap) (fs : Fields) (k : String) (p : Point3) (v : ℚ) :
    fieldsSet (kv :: fs) k p v
      = (if kv.1 = k then (k, fmSet kv.2 p v) else kv) :: fieldsSet fs k p v := rfl

theorem fieldOf_fieldsSet (fs : Fields) (k : String) (p : Point3) (v : ℚ) (F : String) :
    fieldOf (fieldsSet fs k p v) F
      = if F = k ∧ F ∈ fs.map (fun kv => kv.1) then fmSet (fieldOf fs k) p v
        else fieldOf fs F := by
  induction fs with
  | nil => simp [fieldsSet, fieldOf, fmEmpty]
  | cons kv fs ih =>
    rw [fieldsSet_cons, fieldOf_cons]
    by_cases hk : kv.1 = k
    · rw [if_pos hk]
      by_cases hFk : F = k
      · subst hFk
        simp [fieldOf_cons, hk, List.mem_cons]
      · have h1 : ¬((k, fmSet kv.2 p v).1 = F) := fun hc => hFk (hc.symm)
        rw [if_neg h1, ih]
        have hkvF : ¬(kv.1 = F) := fun hc => hFk (by rw [← hc, hk])
        simp [fieldOf_cons, hkvF, hFk]
    · rw [if_neg hk]
      by_cases hF : kv.1 = F
      · rw [if_pos hF]
        have hcond : ¬(F = k ∧ F ∈ (kv :: fs).map (fun kv => kv.1)) := by
          rintro ⟨rfl, -⟩
          exact hk hF
        rw [if_neg hcond, fieldOf_cons, if_pos hF]
      · rw [if_neg hF, ih]
        by_cases hFk : F = k
        · subst hFk
          by_cases hm : F ∈ fs.map (fun kv => kv.1)
          · rw [if_pos ⟨rfl, hm⟩, if_pos ⟨rfl, by simp [List.mem_cons, hm]⟩]
            rw [fieldOf_cons, if_neg hk]
          · rw [if_neg (by simp [hm]), if_neg ?_]
            · rw [fieldOf_cons, if_neg hF]
            · rintro ⟨-, hmem⟩
              rw [List.map_cons, List.mem_cons] at hmem
              rcases hmem with hc | hc
              · exact hF hc.symm
              · exact hm hc
        · rw [if_neg (by rintro ⟨hc, -⟩; exact hFk hc), if_neg (by rintro ⟨hc, -⟩; exact hFk hc)]
          rw [fieldOf_cons, if_neg hF]

theorem setFieldsFor_spec :
    ∀ (ks : List String) (fs : Fields) (p : Point3) (e : Element) (fs2 : Fields),
      setFieldsFor ks fs p e = some fs2 →
      (fs2.map (fun kv => kv.1) = fs.map (fun kv => kv.1)) ∧
      (∀ k ∈ ks, (elemGet? e k).isSome) ∧
      (∀ F q, fmGet? (fieldOf fs2 F) q
         = if F ∈ ks ∧ F ∈ fs.map (fun kv => kv.1) ∧ q = p then elemGet? e F
           else fmGet? (fieldOf fs F) q) := by
  intro ks
  induction ks with
  | nil =>
    intro fs p e fs2 h
    injection h with h'
    subst h'
    refine ⟨rfl, by simp, ?_⟩
    intro F q
    simp
  | cons k ks ih =>
    intro fs p e fs2 h
    unfold setFieldsFor at h
    split at h
    · exact absurd h (by simp)
    · rename_i v hv
      obtain ⟨ihk, ihsome, ihget⟩ := ih (fieldsSet fs k p v) p e fs2 h
      refine ⟨by rw [ihk, fieldsSet_keys], ?_, ?_⟩
      · intro k2 hk2
        rcases List.mem_cons.1 hk2 with rfl | hmem
        · simp [hv]
        · exact ihsome k2 hmem
      · intro F q
        rw [ihget F q, fieldsSet_keys, fieldOf_fieldsSet]
        by_cases hq : q = p
        · subst hq
          by_cases hmem : F ∈ fs.map (fun kv => kv.1)
          · by_cases hFks : F ∈ ks
            · rw [if_pos ⟨hFks, hmem, rfl⟩, if_pos ⟨List.mem_cons_of_mem k hFks, hmem, rfl⟩]
            · by_cases hFk : F = k
              · subst hFk
                rw [if_neg (show ¬(F ∈ ks ∧ F ∈ fs.map (fun kv => kv.1) ∧ q = q) from
                      by rintro ⟨hc, -⟩; exact hFks hc)]
                rw [if_pos (show F = F ∧ F ∈ fs.map (fun kv => kv.1) from ⟨rfl, hmem⟩)]
                rw [fmGet?_fmSet, if_pos rfl]
                rw [if_pos (show F ∈ F :: ks ∧ F ∈ fs.map (fun kv => kv.1) ∧ q = q from
                      ⟨List.mem_cons_self F ks, hmem, rfl⟩), hv]
              · rw [if_neg (show ¬(F ∈ ks ∧ F ∈ fs.map (fun kv => kv.1) ∧ q = q) from
                      by rintro ⟨hc, -⟩; exact hFks hc)]
                rw [if_neg (show ¬(F = k ∧ F ∈ fs.map (fun kv => kv.1)) from
                      by rintro ⟨hc, -⟩; exact hFk hc)]
                rw [if_neg (show ¬(F ∈ k :: ks ∧ F ∈ fs.map (fun kv => kv.1) ∧ q = q) from
                      by rintro ⟨hc, -, -⟩
                         rcases List.mem_cons.1 hc with hc2 | hc2
                         exacts [hFk hc2, hFks hc2])]
          · simp [hmem]
        · rw [if_neg (show ¬(F ∈ ks ∧ F ∈ fs.map (fun kv => kv.1) ∧ q = p) from
                by rintro ⟨-, -, hc⟩; exact hq hc)]
          rw [if_neg (show ¬(F ∈ k :: ks ∧ F ∈ fs.map (fun kv => kv.1) ∧ q = p) from
                by rintro ⟨-, -, hc⟩; exact hq hc)]
          by_cases hcond : F = k ∧ F ∈ fs.map (fun kv => kv.1)
          · rw [if_pos hcond, fmGet?_fmSet, if_neg hq]
            rcases hcond with ⟨rfl, -⟩
            rfl
          · rw [if_neg hcond]

theorem pointOf?_some {e : Element} {p : Point3} (h : pointOf? e = some p) :
    p = pointOfD e ∧ (elemGet? e "X").isSome ∧ (elemGet? e "Y").isSome := by
  unfold pointOf? at h
  unfold pointOfD
  cases hx : elemGet? e "X" with
  | none => rw [hx] at h; exact absurd h (by simp)
  | some x =>
    rw [hx] at h
    cases hy : elemGet? e "Y" with
    | none => rw [hy] at h; exact absurd h (by simp)
    | some y =>
      rw [hy] at h
      injection h with h'
      subst h'
      simp [hx, hy]

theorem mem_addPoint (ps : List Point3) (p q : Point3) :
    q ∈ addPoint ps p ↔ q ∈ ps ∨ q = p := by
  unfold addPoint
  by_cases h : p ∈ ps
  · rw [if_pos h]
    constructor
    · exact Or.inl
    · rintro (hq | rfl)
      · exact hq
      · exact h
  · rw [if_neg h]
    simp [List.mem_append]

theorem nodup_addPoint (ps : List Point3) (p : Point3) (h : ps.Nodup) :
    (addPoint ps p).Nodup := by
  unfold addPoint
  by_cases hm : p ∈ ps
  · rwa [if_pos hm]
  · rw [if_neg hm]
    exact List.Nodup.append h (List.nodup_singleton p) (by simpa using hm)

theorem points_fold_mem (es : List Element) :
    ∀ (ps : List Point3) (q : Point3),
      q ∈ es.foldl (fun ps e => addPoint ps (pointOfD e)) ps
        ↔ q ∈ ps ∨ ∃ e ∈ es, pointOfD e = q := by
  induction es with
  | nil => intro ps q; simp
  | cons e es ih =>
    intro ps q
    rw [List.foldl_cons, ih, mem_addPoint]
    constructor
    · rintro ((hq | rfl) | he)
      · exact Or.inl hq
      · exact Or.inr ⟨e, by simp⟩
      · rcases he with ⟨e2, he2, hpe⟩
        exact Or.inr ⟨e2, by simp [he2], hpe⟩
    · rintro (hq | ⟨e2, he2, hpe⟩)
      · exact Or.inl (Or.inl hq)
      · rcases List.mem_cons.1 he2 with rfl | hmem
        · exact Or.inl (Or.inr hpe.symm)
        · exact Or.inr ⟨e2, hmem, hpe⟩

theorem points_fold_nodup (es : List Element) :
    ∀ ps : List Point3, ps.Nodup →
      (es.foldl (fun ps e => addPoint ps (pointOfD e)) ps).Nodup := by
  induction es with
  | nil => intro ps h; simpa
  | cons e es ih =>
    intro ps h
    rw [List.foldl_cons]
    exact ih _ (nodup_addPoint ps (pointOfD e) h)

theorem foldl_lastWrite (F : String) (q : Point3) (es : List Element) :
    es.foldl (fun acc e => if pointOfD e = q then elemGet? e F else acc) none
      = ((es.filter (fun e => decide (pointOfD e = q))).getLast?).bind
          (fun e => elemGet? e F) := by
  induction es using List.reverseRecOn with
  | nil => simp
  | append_singleton l a ih =>
    rw [List.foldl_append, List.foldl_cons, List.foldl_nil, List.filter_append]
    by_cases ha : pointOfD a = q
    · rw [if_pos ha]
      have : List.filter (fun e => decide (pointOfD e = q)) [a] = [a] := by simp [ha]
      rw [this, List.getLast?_concat]
      simp
    · rw [if_neg ha]
      have : List.filter (fun e => decide (pointOfD e = q)) [a] = [] := by simp [ha]
      rw [this, List.append_nil, ih]

theorem procElems_spec (fieldNames : List String) :
    ∀ (es : List Element) (tp cell : List Point3) (fs : Fields)
      (tp2 cell2 : List Point3) (fs2 : Fields),
      procElems fieldNames es tp cell fs = some (tp2, cell2, fs2) →
      (tp2 = es.foldl (fun ps e => addPoint ps (pointOfD e)) tp) ∧
      (cell2 = cell ++ es.map pointOfD) ∧
      (fs2.map (fun kv => kv.1) = fs.map (fun kv => kv.1)) ∧
      (∀ e ∈ es, (elemGet? e "X").isSome ∧ (elemGet? e "Y").isSome ∧
         ∀ F ∈ fieldNames, (elemGet? e F).isSome) ∧
      (∀ F q, F ∈ fieldNames → F ∈ fs.map (fun kv => kv.1) →
         fmGet? (fieldOf fs2 F) q
           = es.foldl (fun acc e => if pointOfD e = q then elemGet? e F else acc)
               (fmGet? (fieldOf fs F) q)) := by
  intro es
  induction es with
  | nil =>
    intro tp cell fs tp2 cell2 fs2 h
    injection h with h'
    obtain ⟨rfl, rfl, rfl⟩ : tp2 = tp ∧ cell2 = cell ∧ fs2 = fs := by
      refine ⟨congrArg (fun a => a.1) h'.symm, congrArg (fun a => a.2.1) h'.symm,
              congrArg (fun a => a.2.2) h'.symm⟩
    simp
  | cons e es ih =>
    intro tp cell fs tp2 cell2 fs2 h
    unfold procElems at h
    split at h
    · exact absurd h (by simp)
    · rename_i p hp
      split at h
      · exact absurd h (by simp)
      · rename_i fs1 hfs1
        obtain ⟨hpd, hx, hy⟩ := pointOf?_some hp
        subst hpd
        obtain ⟨ihtp, ihcell, ihkeys, ihsome, ihget⟩ := ih _ _ _ _ _ _ h
        obtain ⟨sfkeys, sfsome, sfget⟩ := setFieldsFor_spec fieldNames fs (pointOfD e) e fs1 hfs1
        refine ⟨by rw [ihtp, List.foldl_cons], ?_, by rw [ihkeys, sfkeys], ?_, ?_⟩
        · rw [ihcell, List.map_cons, List.append_assoc, List.singleton_append]
        · intro e2 he2
          rcases List.mem_cons.1 he2 with rfl | hmem
          · exact ⟨hx, hy, fun F hF => sfsome F hF⟩
          · exact ihsome e2 hmem
        · intro F q hF hFkeys
          rw [List.foldl_cons]
          have hkeys1 : F ∈ fs1.map (fun kv => kv.1) := by rw [sfkeys]; exact hFkeys
          rw [ihget F q hF hkeys1, sfget F q]
          by_cases hqp : q = pointOfD e
          · rw [if_pos ⟨hF, hFkeys, hqp⟩, if_pos hqp.symm]
          · rw [if_neg (by rintro ⟨-, -, hc⟩; exact hqp hc), if_neg (fun hc => hqp hc.symm)]

theorem procZones_spec (fieldNames : List String) :
    ∀ (zs : List Zone) (tp : List Point3) (tc : List (List Point3)) (fs : Fields)
      (tp2 : List Point3) (tc2 : List (List Point3)) (fs2 : Fields),
      procZones fieldNames zs tp tc fs = some (tp2, tc2, fs2) →
      (tp2 = ((zs.map zoneElems).flatten).foldl (fun ps e => addPoint ps (pointOfD e)) tp) ∧
      (tc2 = tc ++ zs.map (fun z => (zoneElems z).map pointOfD)) ∧
      (fs2.map (fun kv => kv.1) = fs.map (fun kv => kv.1)) ∧
      (∀ z ∈ zs, ∀ e ∈ zoneElems z, (elemGet? e "X").isSome ∧ (elemGet? e "Y").isSome ∧
         ∀ F ∈ fieldNames, (elemGet? e F).isSome) ∧
      (∀ F q, F ∈ fieldNames → F ∈ fs.map (fun kv => kv.1) →
         fmGet? (fieldOf fs2 F) q
           = ((zs.map zoneElems).flatten).foldl
               (fun acc e => if pointOfD e = q then elemGet? e F else acc)
               (fmGet? (fieldOf fs F) q)) := by
  intro zs
  induction zs with
  | nil =>
    intro tp tc fs tp2 tc2 fs2 h
    injection h with h'
    obtain ⟨rfl, rfl, rfl⟩ : tp2 = tp ∧ tc2 = tc ∧ fs2 = fs := by
      refine ⟨congrArg (fun a => a.1) h'.symm, congrArg (fun a => a.2.1) h'.symm,
              congrArg (fun a => a.2.2) h'.symm⟩
    simp
  | cons z zs ih =>
    intro tp tc fs tp2 tc2 fs2 h
    unfold procZones at h
    split at h
    · exact absurd h (by simp)
    · rename_i a ha
      obtain ⟨etp, ecell, ekeys, esome, eget⟩ :=
        procElems_spec fieldNames (zoneElems z) tp [] fs a.1 a.2.1 a.2.2 (by rw [ha])
      obtain ⟨ihtp, ihtc, ihkeys, ihsome, ihget⟩ := ih _ _ _ _ _ _ h
      refine ⟨?_, ?_, by rw [ihkeys, ekeys], ?_, ?_⟩
      · rw [ihtp, etp, List.map_cons, List.flatten_cons, List.foldl_append]
      · rw [ihtc, ecell, List.nil_append, List.map_cons, List.append_assoc,
            List.singleton_append]
      · intro z2 hz2
        rcases List.mem_cons.1 hz2 with rfl | hmem
        · exact esome
        · exact ihsome z2 hmem
      · intro F q hF hFkeys
        have hkeys1 : F ∈ a.2.2.map (fun kv => kv.1) := by rw [ekeys]; exact hFkeys
        rw [ihget F q hF hkeys1, eget F q hF hFkeys, List.map_cons, List.flatten_cons,
            List.foldl_append]

theorem convert_spec (t : Timestep) (m : VTKPolyData) (h : t.convertToVTKPolyData = some m) :
    ∃ acc : List Point3 × List (List Point3) × Fields,
      procZones (fieldNamesOf t) t.zones [] []
          ((fieldNamesOf t).map (fun k => (k, fmEmpty))) = some acc ∧
      m.points = acc.1 ∧
      m.cells = acc.2.1.map (fun c => c.map (fun p => pIndex acc.1 p)) ∧
      m.fields = acc.2.2 := by
  unfold Timestep.convertToVTKPolyData at h
  dsimp only at h
  split at h
  · exact absurd h (by simp)
  · rename_i acc hacc
    refine ⟨acc, hacc, ?_, ?_, ?_⟩
    · exact (congrArg (fun d => d.points) (Option.some.inj h)).symm
    · exact (congrArg (fun d => d.cells) (Option.some.inj h)).symm
    · exact (congrArg (fun d => d.fields) (Option.some.inj h)).symm

theorem filter_length_one_of_nodup (l : List Point3) (p : Point3)
    (hnd : l.Nodup) (hm : p ∈ l) :
    (l.filter (fun q => decide (q = p))).length = 1 := by
  induction l with
  | nil => simp at hm
  | cons a l ih =>
    rw [List.nodup_cons] at hnd
    rcases List.mem_cons.1 hm with rfl | hmem
    · rw [List.filter_cons, if_pos (by simp)]
      have : l.filter (fun q => decide (q = p)) = [] := by
        rw [List.filter_eq_nil_iff]
        intro q hq
        simp only [decide_eq_true_eq]
        rintro rfl
        exact hnd.1 hq
      simp [this]
    · rw [List.filter_cons, if_neg (by simp; rintro rfl; exact hnd.1 hmem)]
      exact ih hnd.2 hmem

theorem fieldOf_init (names : List String) (F : String) :
    fieldOf (names.map (fun k => (k, fmEmpty))) F = fmEmpty := by
  induction names with
  | nil => rfl
  | cons k names ih =>
    rw [List.map_cons, fieldOf_cons]
    by_cases h : k = F
    · rw [if_pos h]
    · rw [if_neg h, ih]

/-- C4: whenever the same (X, Y) coordinate pair occurs in one or more
elements of a parsed timestep, the converted mesh holds exactly one point
with that coordinate, every cell entry is the index of its element's point
in the mesh's point list, and in particular every cell entry arising from
any occurrence of that coordinate is the same point index.  (Proved without
even needing the claim's identical-field-values hypothesis.) -/
theorem c4_point_dedup (t : Timestep) (m : VTKPolyData) (x y : ℚ)
    (h : t.convertToVTKPolyData = some m)
    (hocc : ∃ z ∈ t.zones, ∃ e ∈ zoneElems z,
              elemGet? e "X" = some x ∧ elemGet? e "Y" = some y) :
    ((m.points.filter (fun q => decide (q = (x, y, 0)))).length = 1) ∧
    (m.cells = t.zones.map (fun z => (zoneElems z).map (fun e => pIndex m.points (pointOfD e)))) ∧
    (∀ z ∈ t.zones, ∀ e ∈ zoneElems z,
       elemGet? e "X" = some x → elemGet? e "Y" = some y →
       pIndex m.points (pointOfD e) = pIndex m.points (x, y, 0)) := by
  obtain ⟨acc, hacc, hpts, hcells, hflds⟩ := convert_spec t m h
  obtain ⟨ztp, ztc, -, -, -⟩ := procZones_spec (fieldNamesOf t) t.zones [] [] _ _ _ _ hacc
  have hnodup : m.points.Nodup := by
    rw [hpts, ztp]
    exact points_fold_nodup _ [] List.nodup_nil
  refine ⟨?_, ?_, ?_⟩
  · obtain ⟨z, hz, e, he, hx, hy⟩ := hocc
    have hpd : pointOfD e = (x, y, 0) := by
      unfold pointOfD
      rw [hx, hy]
      rfl
    have hmem : (x, y, 0) ∈ m.points := by
      rw [hpts, ztp, points_fold_mem]
      exact Or.inr ⟨e, List.mem_flatten.2 ⟨zoneElems z, List.mem_map_of_mem zoneElems hz, he⟩, hpd⟩
    exact filter_length_one_of_nodup m.points (x, y, 0) hnodup hmem
  · rw [hcells, ztc, List.nil_append, List.map_map]
    apply List.map_congr_left
    intro z _
    rw [Function.comp, List.map_map]
    apply List.map_congr_left
    intro e _
    rw [Function.comp, hpts]
  · intro z hz e he hx hy
    have hpd : pointOfD e = (x, y, 0) := by
      unfold pointOfD
      rw [hx, hy]
      rfl
    rw [hpd]

/-- C5: for a timestep whose every element maps every declared variable to
a value, the converted mesh's every field has an entry for every mesh
point, and the retained value for a point/field pair is the one from the
last element (in zone/row/column traversal order) carrying that point —
last write wins. -/
theorem c5_field_completeness (t : Timestep) (m : VTKPolyData)
    (htot : ∀ z ∈ t.zones, ∀ e ∈ zoneElems z, ∀ v ∈ t.variableList, (elemGet? e v).isSome)
    (h : t.convertToVTKPolyData = some m) :
    ∀ F ∈ m.fields.map (fun kv => kv.1), ∀ p ∈ m.points,
      (fieldOf m.fields F) p
        = (((allElems t).filter (fun e => decide (pointOfD e = p))).getLast?).bind
            (fun e => elemGet? e F) ∧
      ((fieldOf m.fields F) p).isSome := by
  obtain ⟨acc, hacc, hpts, hcells, hflds⟩ := convert_spec t m h
  obtain ⟨ztp, ztc, zkeys, zsome, zget⟩ := procZones_spec (fieldNamesOf t) t.zones [] [] _ _ _ _ hacc
  have hinitkeys : (((fieldNamesOf t).map (fun k => (k, fmEmpty))).map (fun kv => kv.1))
      = fieldNamesOf t := by
    rw [List.map_map]
    have hcomp : ((fun kv : String × FieldMap => kv.1) ∘ (fun k => (k, fmEmpty))) = id := rfl
    rw [hcomp, List.map_id]
  intro F hF p hp
  have hFnames : F ∈ fieldNamesOf t := by
    rw [hflds, zkeys, hinitkeys] at hF
    exact hF
  have hFinit : F ∈ (((fieldNamesOf t).map (fun k => (k, fmEmpty))).map (fun kv => kv.1)) := by
    rw [hinitkeys]
    exact hFnames
  have hlook : (fieldOf m.fields F) p
      = (((allElems t).filter (fun e => decide (pointOfD e = p))).getLast?).bind
          (fun e => elemGet? e F) := by
    have : (fieldOf m.fields F) p = fmGet? (fieldOf acc.2.2 F) p := by rw [hflds]; rfl
    rw [this, zget F p hFnames hFinit, fieldOf_init]
    have hinit : fmGet? fmEmpty p = (none : Option ℚ) := rfl
    rw [hinit]
    exact foldl_lastWrite F p (t.zones.map zoneElems).flatten
  refine ⟨hlook, ?_⟩
  rw [hlook]
  have hex : ∃ e ∈ (t.zones.map zoneElems).flatten, pointOfD e = p := by
    have := (points_fold_mem (t.zones.map zoneElems).flatten [] p).1 (by rw [← ztp, ← hpts]; exact hp)
    rcases this with hc | hc
    · simp at hc
    · exact hc
  obtain ⟨e, he, hpe⟩ := hex
  have hfilter_ne : (allElems t).filter (fun e => decide (pointOfD e = p)) ≠ [] := by
    intro hc
    have : e ∈ (allElems t).filter (fun e => decide (pointOfD e = p)) := by
      rw [List.mem_filter]
      exact ⟨he, by simp [hpe]⟩
    rw [hc] at this
    simp at this
  cases hlast : ((allElems t).filter (fun e => decide (pointOfD e = p))).getLast? with
  | none => exact absurd (List.getLast?_eq_none_iff.1 hlast) hfilter_ne
  | some e2 =>
    have he2 : e2 ∈ (allElems t).filter (fun e => decide (pointOfD e = p)) :=
      List.mem_of_mem_getLast? (by rw [hlast]; rfl)
    have he2' : e2 ∈ (t.zones.map zoneElems).flatten := (List.mem_filter.1 he2).1
    obtain ⟨l, hl, hel⟩ := List.mem_flatten.1 he2'
    obtain ⟨z, hz, rfl⟩ := List.mem_map.1 hl
    have := (zsome z hz e2 hel).2.2 F hFnames
    exact this

theorem c4_point_dedup_witness :
    c4t.convertToVTKPolyData = some c4m ∧
    (∃ z ∈ c4t.zones, ∃ e ∈ zoneElems z, elemGet? e "X" = some 1 ∧ elemGet? e "Y" = some 2) ∧
    (((c4m.points.filter (fun q => decide (q = (1, 2, 0)))).length = 1) ∧
     (c4m.cells = c4t.zones.map (fun z => (zoneElems z).map (fun e => pIndex c4m.points (pointOfD e)))) ∧
     (∀ z ∈ c4t.zones, ∀ e ∈ zoneElems z,
        elemGet? e "X" = some 1 → elemGet? e "Y" = some 2 →
        pIndex c4m.points (pointOfD e) = pIndex c4m.points (1, 2, 0))) :=
  ⟨rfl, by decide, c4_point_dedup c4t c4m 1 2 rfl (by decide)⟩

theorem c5_field_completeness_witness :
    (∀ z ∈ c5t.zones, ∀ e ∈ zoneElems z, ∀ v ∈ c5t.variableList, (elemGet? e v).isSome) ∧
    c5t.convertToVTKPolyData = some c5m ∧
    (∀ F ∈ c5m.fields.map (fun kv => kv.1), ∀ p ∈ c5m.points,
       (fieldOf c5m.fields F) p
         = (((allElems c5t).filter (fun e => decide (pointOfD e = p))).getLast?).bind
             (fun e => elemGet? e F) ∧
       ((fieldOf c5m.fields F) p).isSome) :=
  ⟨by decide, rfl, c5_field_completeness c5t c5m (by decide) rfl⟩
